import Mathlib

/-!
Verification of the wolf control-plane core: the encrypted-packet transport
codec, the decrypted-message registry and dispatch, the control-session
state machine, the typed event bus, and the GStreamer pipeline event
handlers.

The GStreamer pipeline handlers (`start_streaming_video`,
`start_streaming_audio`) and the `run_control` default timeout are embedded
from the repository sources.  The codec, registry, state machine and event
bus are implemented elsewhere in the repository; following the protocol
documentation shipped with the sources, they are modelled here from the
specification, as marked in each doc comment.
-/

namespace Wolf

/-- Error taxonomy of the codec layer (section 7 of the spec). -/
inductive CodecError where
  | AuthenticationFailed
  | Malformed
  deriving Repr, DecidableEq

/-- Error taxonomy of the message registry and handshake (section 7). -/
inductive DecodeError where
  | UnknownType
  | Truncated
  | UnexpectedInSequence
  deriving Repr, DecidableEq

/-- Session-terminating error conditions (section 7). -/
inductive SessionError where
  | Timeout
  | ExplicitTermination
  deriving Repr, DecidableEq

/-- Session lifecycle states (section 4.3).  `Handshaking` records whether
START_A has already been accepted, since the handshake must arrive in the
order START_A then START_B. -/
inductive SessionState where
  | Handshaking (gotStartA : Bool)
  | Established
  | Terminating
  | Closed
  deriving Repr, DecidableEq

/-- Per-client control-session state (section 3 of the spec). -/
structure ControlSession where
  session_id : Nat
  aes_key : Nat
  aes_iv_base : Nat
  send_seq : Nat
  recv_seq_high_water : Nat
  last_activity_time : Nat
  state : SessionState
  deriving Repr, DecidableEq

/-- Wire envelope of an encrypted packet (section 3 and section 6).
Bytes are modelled as natural numbers; the 16-byte tag is held as one
natural number (its little-endian byte serialisation is `natToLE 16`). -/
structure EncryptedPacket where
  ptype : Nat
  len : Nat
  seq : Nat
  tag : Nat
  payload : List Nat
  deriving Repr, DecidableEq

/-- Little-endian serialisation of a natural number into `w` bytes. -/
def natToLE : Nat → Nat → List Nat
  | 0, _ => []
  | w + 1, v => v % 256 :: natToLE w (v / 256)

/-- Little-endian read of `w` bytes starting at offset `off` (missing bytes
read as zero). -/
def readNatLE (d : List Nat) (off : Nat) : Nat → Nat
  | 0 => 0
  | w + 1 => d.getD off 0 + 256 * readNatLE d (off + 1) w

/-- Modelled from the spec: the per-packet IV is derived deterministically
from the session's base IV XORed with the packet's sequence number
(section 4.1); the AES-GCM cipher itself is not part of the sources. -/
def packetIV (ivBase seq : Nat) : Nat := ivBase ^^^ seq

/-- Modelled from the spec: deterministic keystream of the AES-GCM-128
cipher, abstracted as a byte stream keyed by key and IV; the cipher
implementation is not part of the sources. -/
def keystreamByte (key iv i : Nat) : Nat := (key + 131 * iv + 17 * i) % 256

/-- Modelled from the spec: stream encryption/decryption XORs every byte
with the keystream, starting at stream position `i`. -/
def xorStream (key iv : Nat) : Nat → List Nat → List Nat
  | _, [] => []
  | i, b :: rest => (b ^^^ keystreamByte key iv i) :: xorStream key iv (i + 1) rest

/-- Modelled from the spec: the 16-byte AEAD authentication tag over the
ciphertext, keyed by key and IV and binding the ciphertext length; the GCM
GHASH implementation is not part of the sources.  The model detects every
single-bit modification of the ciphertext or of the tag. -/
def gcmTag (key iv : Nat) (ct : List Nat) : Nat :=
  ct.foldr (fun b acc => b ^^^ acc) (key ^^^ (iv ^^^ ct.length))

/-- Modelled from the spec (section 4.1): `encrypt(session, plaintext)`
uses `send_seq` as the packet sequence number / AEAD nonce and increments
it by exactly one; `len` counts seq + tag + payload (section 6). -/
def encrypt (s : ControlSession) (m : List Nat) : EncryptedPacket × ControlSession :=
  let iv := packetIV s.aes_iv_base s.send_seq
  let ct := xorStream s.aes_key iv 0 m
  ({ ptype := 1
     len := 20 + ct.length
     seq := s.send_seq
     tag := gcmTag s.aes_key iv ct
     payload := ct },
   { s with send_seq := s.send_seq + 1 })

/-- Modelled from the spec (section 4.1): `decrypt(session, packet)`
verifies the AEAD tag before returning any plaintext and reports
`AuthenticationFailed` on mismatch. -/
def decrypt (s : ControlSession) (p : EncryptedPacket) : Except CodecError (List Nat) :=
  let iv := packetIV s.aes_iv_base p.seq
  if gcmTag s.aes_key iv p.payload = p.tag then
    .ok (xorStream s.aes_key iv 0 p.payload)
  else
    .error .AuthenticationFailed

/-- Modelled from the spec: the outbound path of the dispatch loop; every
transmitted packet (a retransmission re-enters this same path and is
re-encrypted) goes through `encrypt` on the current session state. -/
def sendAll : ControlSession → List (List Nat) → List EncryptedPacket × ControlSession
  | s, [] => ([], s)
  | s, m :: ms =>
    let pe := encrypt s m
    let rest := sendAll pe.2 ms
    (pe.1 :: rest.1, rest.2)

/-- Flips bit `b` (a wire-level single-bit corruption) of the byte at
index `i` of a byte list. -/
def flipByteBit (l : List Nat) (i b : Nat) : List Nat :=
  l.set i (l.getD i 0 ^^^ 2 ^ b)

/-- A packet whose 16-byte tag has a single bit `b` flipped in transit. -/
def tagFlip (p : EncryptedPacket) (b : Nat) : EncryptedPacket :=
  { p with tag := p.tag ^^^ 2 ^ b }

/-- A packet whose ciphertext payload has bit `b` of byte `i` flipped in
transit. -/
def payloadFlip (p : EncryptedPacket) (i b : Nat) : EncryptedPacket :=
  { p with payload := flipByteBit p.payload i b }

/-- A fixed concrete session used to instantiate universally quantified
theorems on explicit inputs. -/
def exampleSession : ControlSession :=
  { session_id := 1, aes_key := 42, aes_iv_base := 7, send_seq := 3,
    recv_seq_high_water := 0, last_activity_time := 0, state := .Established }

/-- Closed set of decrypted-message type tags (section 6 of the spec and
the protocol documentation shipped with the sources). -/
inductive MessageKind where
  | TERMINATION
  | PERIODIC_PING
  | LOSS_STATS
  | FRAME_STATS
  | INPUT_DATA
  | INVALIDATE_REF_FRAMES
  | IDR_FRAME
  | START_A
  | START_B
  | HDR_MODE
  | RUMBLE_DATA
  | RUMBLE_TRIGGERS
  | MOTION_EVENT
  | RGB_LED
  deriving Repr, DecidableEq

/-- Mapping from the 2-byte wire type tag to the message kind; tags outside
the closed set map to `none` (section 6 and the protocol documentation). -/
def messageTypeOf : Nat → Option MessageKind
  | 0x0100 => some .TERMINATION
  | 0x0200 => some .PERIODIC_PING
  | 0x0201 => some .LOSS_STATS
  | 0x0204 => some .FRAME_STATS
  | 0x0206 => some .INPUT_DATA
  | 0x0301 => some .INVALIDATE_REF_FRAMES
  | 0x0302 => some .IDR_FRAME
  | 0x0305 => some .START_A
  | 0x0307 => some .START_B
  | 0x010e => some .HDR_MODE
  | 0x010b => some .RUMBLE_DATA
  | 0x5500 => some .RUMBLE_TRIGGERS
  | 0x5501 => some .MOTION_EVENT
  | 0x5502 => some .RGB_LED
  | _ => none

/-- Domain events published on the event bus (section 3 of the spec). -/
inductive Event where
  | IdrRequested (session_id : Nat)
  | Terminated (session_id : Nat) (reason : SessionError)
  | RumbleRequested (session_id controller low_freq high_freq : Nat)
  | RumbleTriggersRequested (session_id controller left right : Nat)
  | MotionEventEnabled (session_id controller rate sensor_kind : Nat)
  | RgbLedRequested (session_id controller r g b : Nat)
  | LossStatsReported (session_id : Nat) (body : List Nat)
  | FrameStatsReported (session_id : Nat) (body : List Nat)
  | InputReceived (session_id : Nat) (body : List Nat)
  | HdrModeChanged (session_id : Nat) (body : List Nat)
  deriving Repr, DecidableEq

/-- Modelled from the spec: per-kind payload decoders of the message
registry, using the little-endian fixed layouts of section 6 and of the
protocol documentation (RUMBLE_DATA unused:4 controller:2 low:2 high:2;
RUMBLE_TRIGGERS controller:2 left:2 right:2; MOTION_EVENT controller:2
rate:2 kind:1; RGB_LED controller:2 r:1 g:1 b:1).  A body shorter than the
fixed fields is `Truncated`.  Kinds consumed by the state machine rather
than decoded into an event yield `none`. -/
def decodeKind (sid : Nat) (k : MessageKind) (body : List Nat) :
    Except DecodeError (Option Event) :=
  match k with
  | .IDR_FRAME => .ok (some (.IdrRequested sid))
  | .LOSS_STATS => .ok (some (.LossStatsReported sid body))
  | .FRAME_STATS => .ok (some (.FrameStatsReported sid body))
  | .INPUT_DATA => .ok (some (.InputReceived sid body))
  | .HDR_MODE => .ok (some (.HdrModeChanged sid body))
  | .RUMBLE_DATA =>
      if body.length < 10 then .error .Truncated
      else .ok (some (.RumbleRequested sid (readNatLE body 4 2) (readNatLE body 6 2)
        (readNatLE body 8 2)))
  | .RUMBLE_TRIGGERS =>
      if body.length < 6 then .error .Truncated
      else .ok (some (.RumbleTriggersRequested sid (readNatLE body 0 2)
        (readNatLE body 2 2) (readNatLE body 4 2)))
  | .MOTION_EVENT =>
      if body.length < 5 then .error .Truncated
      else .ok (some (.MotionEventEnabled sid (readNatLE body 0 2)
        (readNatLE body 2 2) (body.getD 4 0)))
  | .RGB_LED =>
      if body.length < 5 then .error .Truncated
      else .ok (some (.RgbLedRequested sid (readNatLE body 0 2) (body.getD 2 0)
        (body.getD 3 0) (body.getD 4 0)))
  | _ => .ok none

/-- Modelled from the spec (section 4.2): `decode(msg_type, body)` of the
message registry; an unknown type tag is `DecodeError.UnknownType`. -/
def decode (sid mt : Nat) (body : List Nat) : Except DecodeError (Option Event) :=
  match messageTypeOf mt with
  | none => .error .UnknownType
  | some k => decodeKind sid k body

/-- Modelled from the spec (section 4.3): message handling in the
`Established` state; an explicit TERMINATION transitions to `Terminating`
and publishes `Terminated{ExplicitTermination}`, every other kind is
dispatched through the registry decoders. -/
def dispatchEstablished (s : ControlSession) (k : MessageKind) (body : List Nat) :
    Except DecodeError (ControlSession × List Event) :=
  match k with
  | .TERMINATION =>
      .ok ({ s with state := .Terminating },
        [.Terminated s.session_id .ExplicitTermination])
  | _ =>
      match decodeKind s.session_id k body with
      | .error e => .error e
      | .ok none => .ok (s, [])
      | .ok (some ev) => .ok (s, [ev])

/-- Modelled from the spec (section 4.3): the control-session state
machine.  PERIODIC_PING is always accepted and refreshes the keepalive
clock; in `Handshaking` only START_A then START_B are accepted in that
order and every other kind is rejected with `UnexpectedInSequence`;
`Established` dispatches all kinds; inbound messages in `Terminating` and
`Closed` are dropped. -/
def handleKind (now : Nat) (s : ControlSession) (k : MessageKind) (body : List Nat) :
    Except DecodeError (ControlSession × List Event) :=
  match k with
  | .PERIODIC_PING => .ok ({ s with last_activity_time := now }, [])
  | _ =>
    match s.state with
    | .Handshaking false =>
        match k with
        | .START_A => .ok ({ s with state := .Handshaking true }, [])
        | _ => .error .UnexpectedInSequence
    | .Handshaking true =>
        match k with
        | .START_B => .ok ({ s with state := .Established }, [])
        | _ => .error .UnexpectedInSequence
    | .Established => dispatchEstablished s k body
    | .Terminating => .ok (s, [])
    | .Closed => .ok (s, [])

/-- Reasons for dropping a single inbound packet (section 7): either a
codec failure or a registry/handshake decode failure. -/
inductive DropReason where
  | codec (e : CodecError)
  | dec (e : DecodeError)
  deriving Repr, DecidableEq

/-- Modelled from the spec (sections 4.2, 4.3, 7): per-packet processing of
the dispatch loop after framing: decrypt, read the decrypted header
(`type:u16`, `size:u16`), decode, update the state machine, and record the
accepted sequence number; every failure drops the packet and leaves the
session untouched. -/
def processPacket (now : Nat) (s : ControlSession) (p : EncryptedPacket) :
    ControlSession × List Event × Option DropReason :=
  match decrypt s p with
  | .error e => (s, [], some (.codec e))
  | .ok plain =>
    match messageTypeOf (readNatLE plain 0 2) with
    | none => (s, [], some (.dec .UnknownType))
    | some k =>
      match handleKind now s k ((plain.drop 4).take (readNatLE plain 2 2)) with
      | .error e => (s, [], some (.dec e))
      | .ok ses =>
        ({ ses.1 with recv_seq_high_water := max ses.1.recv_seq_high_water p.seq },
         ses.2, none)

/-- Modelled from the spec (sections 3 and 6): the reader of the wire
envelope.  It validates the fixed envelope type, that `len` covers at least
the seq and tag fields, and that the datagram actually holds the `len`
bytes the envelope claims; otherwise the datagram is `Malformed`. -/
def parseDatagram (d : List Nat) : Except CodecError EncryptedPacket :=
  if readNatLE d 0 2 ≠ 1 then .error .Malformed
  else if readNatLE d 2 2 < 20 then .error .Malformed
  else if d.length < 4 + readNatLE d 2 2 then .error .Malformed
  else .ok { ptype := readNatLE d 0 2, len := readNatLE d 2 2, seq := readNatLE d 4 4,
             tag := readNatLE d 8 16, payload := (d.drop 24).take (readNatLE d 2 2 - 20) }

/-- Wire serialisation of the envelope, little-endian (section 6 of the
spec and the protocol documentation): type:2, len:2, seq:4, tag:16,
payload. -/
def serializePacket (p : EncryptedPacket) : List Nat :=
  natToLE 2 p.ptype ++ natToLE 2 p.len ++ natToLE 4 p.seq ++ natToLE 16 p.tag ++ p.payload

/-- A concrete one-byte message encrypted under `exampleSession` and
serialised onto the wire. -/
def exampleDatagram : List Nat := serializePacket (encrypt exampleSession [65]).1

/-- Modelled from the spec: framing followed by AEAD decryption; a
datagram rejected by the reader never reaches `decrypt`. -/
def decryptDatagram (s : ControlSession) (d : List Nat) : Except CodecError (List Nat) :=
  match parseDatagram d with
  | .error e => .error e
  | .ok p => decrypt s p

/-- Modelled from the spec (sections 4 and 5): one iteration of the
dispatch loop on an inbound datagram.  A `Closed` session drops all
inbound packets. -/
def sessionStep (now : Nat) (s : ControlSession) (d : List Nat) :
    ControlSession × List Event × Option DropReason :=
  if s.state = .Closed then (s, [], none)
  else
    match parseDatagram d with
    | .error e => (s, [], some (.codec e))
    | .ok p => processPacket now s p

/-- Embedded from control.hpp: `run_control(control_sess, int
timeout_millis = 1000)` — the default keepalive timeout in milliseconds. -/
def run_control_default_timeout : Nat := 1000

/-- Modelled from the spec (sections 4.3 and 5): the keepalive timer; when
it fires in `Established` with no ping received within the timeout, the
session transitions to `Terminating` and publishes
`Terminated{Timeout}`. -/
def keepaliveCheck (timeout now : Nat) (s : ControlSession) : ControlSession × List Event :=
  if s.state = .Established ∧ s.last_activity_time + timeout ≤ now then
    ({ s with state := .Terminating }, [.Terminated s.session_id .Timeout])
  else (s, [])

/-- Discrete keepalive timeline item: a PERIODIC_PING received at an
absolute time, or a firing of the keepalive timer at an absolute time. -/
inductive TraceItem where
  | ping (t : Nat)
  | tick (t : Nat)
  deriving Repr, DecidableEq

/-- Modelled from the spec (section 5): the keepalive loop of one session:
pings refresh `last_activity_time`, timer ticks run `keepaliveCheck`. -/
def runTrace (timeout : Nat) (s : ControlSession) : List TraceItem → ControlSession × List Event
  | [] => (s, [])
  | .ping t :: rest => runTrace timeout { s with last_activity_time := t } rest
  | .tick t :: rest =>
    let se := keepaliveCheck timeout t s
    let rest' := runTrace timeout se.1 rest
    (rest'.1, se.2 ++ rest'.2)

/-- A timeline in which every timer tick happens while the last ping (given
the activity clock `la` at entry) is still within the timeout. -/
def aliveTrace (timeout : Nat) : Nat → List TraceItem → Bool
  | _, [] => true
  | _, .ping t :: rest => aliveTrace timeout t rest
  | la, .tick t :: rest => decide (t < la + timeout) && aliveTrace timeout la rest

/-- Checks that a timeline item is a timer tick (no ping traffic). -/
def isTick : TraceItem → Bool
  | .tick _ => true
  | .ping _ => false

/-- Checks that a timeline item is a timer tick at time `d` or later. -/
def tickAtLeast (d : Nat) : TraceItem → Bool
  | .tick t => decide (d ≤ t)
  | .ping _ => false

/-- A concrete keepalive timeline on which pings keep arriving within the
timeout. -/
def alivePingTrace : List TraceItem := [.ping 500, .tick 900, .ping 1000, .tick 1800]

/-- A concrete keepalive timeline with timer ticks only and no pings. -/
def silentTrace : List TraceItem := [.tick 400, .tick 1200]

/-- Modelled from the spec (section 4.4): the event bus holds, per event
kind, the subscriber callbacks in subscription order; subscribers are
identified by their handles. -/
structure EventBus where
  subs : List Nat
  deriving Repr, DecidableEq

/-- Modelled from the spec (section 4.4): subscription appends the new
subscriber after all existing ones. -/
def subscribe (b : EventBus) (h : Nat) : EventBus := ⟨b.subs ++ [h]⟩

/-- Modelled from the spec (section 4.4): a synchronous publish invokes
every currently-registered subscriber for the kind, in subscription order;
the result is the ordered list of performed invocations. -/
def publish (b : EventBus) (e : Event) : List (Nat × Event) :=
  b.subs.map (fun h => (h, e))

/-- Control events as consumed by the streaming layer: the session the
event belongs to and the control message type (data-structures used by
streaming.cpp). -/
structure ControlEvent where
  session_id : Nat
  type : MessageKind
  deriving Repr, DecidableEq

/-- Session termination event as consumed by the streaming layer. -/
structure TerminateEvent where
  session_id : Nat
  deriving Repr, DecidableEq

/-- Actions the pipeline handlers may perform on the GStreamer pipeline. -/
inductive GstAction where
  | forceKeyUnit
  | quitMainLoop
  deriving Repr, DecidableEq

/-- Embedded from streaming.cpp `start_streaming_video`: the ControlEvent
handler registered on the event bus; only when the event's session id
equals the video session's id and its type is IDR_FRAME does it send the
GstForceKeyUnit custom event to the pipeline. -/
def video_idr_handler (sess_id : Nat) (ev : ControlEvent) : List GstAction :=
  if ev.session_id = sess_id then
    if ev.type = .IDR_FRAME then [.forceKeyUnit] else []
  else []

/-- Embedded from streaming.cpp `start_streaming_video`: the TerminateEvent
handler; only a matching session id quits the pipeline's main loop. -/
def video_terminate_handler (sess_id : Nat) (ev : TerminateEvent) : List GstAction :=
  if ev.session_id = sess_id then [.quitMainLoop] else []

/-- Embedded from streaming.cpp `start_streaming_audio`: the TerminateEvent
handler; only a matching session id quits the pipeline's main loop. -/
def audio_terminate_handler (sess_id : Nat) (ev : TerminateEvent) : List GstAction :=
  if ev.session_id = sess_id then [.quitMainLoop] else []

theorem xor_pow_ne (a b : Nat) : a ^^^ 2 ^ b ≠ a := by
  intro h
  have h2 : a ^^^ (a ^^^ 2 ^ b) = a ^^^ a := by rw [h]
  rw [← Nat.xor_assoc, Nat.xor_self, Nat.zero_xor] at h2
  exact (pow_pos (by norm_num : (0 : ℕ) < 2) b).ne' h2

theorem foldr_xor_set (l : List Nat) : ∀ (i d a : Nat), i < l.length →
    (l.set i (l.getD i 0 ^^^ d)).foldr (fun b acc => b ^^^ acc) a
      = (l.foldr (fun b acc => b ^^^ acc) a) ^^^ d := by
  induction l with
  | nil => intro i d a h; simp at h
  | cons x t ih =>
    intro i d a h
    cases i with
    | zero =>
      simp only [List.getD_cons_zero, List.set_cons_zero, List.foldr_cons]
      rw [Nat.xor_assoc, Nat.xor_comm d, ← Nat.xor_assoc]
    | succ i =>
      simp only [List.getD_cons_succ, List.set_cons_succ, List.foldr_cons]
      rw [ih i d a (by simpa using Nat.lt_of_succ_lt_succ h), ← Nat.xor_assoc]

theorem gcmTag_flipByteBit (key iv : Nat) (ct : List Nat) (i b : Nat)
    (h : i < ct.length) :
    gcmTag key iv (flipByteBit ct i b) = gcmTag key iv ct ^^^ 2 ^ b := by
  unfold gcmTag flipByteBit
  rw [List.length_set]
  exact foldr_xor_set ct i (2 ^ b) _ h

theorem decrypt_wrong_tag (s : ControlSession) (p : EncryptedPacket)
    (h : gcmTag s.aes_key (packetIV s.aes_iv_base p.seq) p.payload ≠ p.tag) :
    decrypt s p = .error .AuthenticationFailed := by
  simp only [decrypt]
  rw [if_neg h]

theorem processPacket_decrypt_error (now : Nat) (s : ControlSession)
    (p : EncryptedPacket) (e : CodecError) (h : decrypt s p = .error e) :
    processPacket now s p = (s, [], some (.codec e)) := by
  simp only [processPacket, h]

theorem xorStream_length (key iv : Nat) : ∀ (i : Nat) (m : List Nat),
    (xorStream key iv i m).length = m.length := by
  intro i m
  induction m generalizing i with
  | nil => rfl
  | cons b rest ih => simp [xorStream, ih]

theorem xorStream_xorStream (key iv : Nat) : ∀ (i : Nat) (m : List Nat),
    xorStream key iv i (xorStream key iv i m) = m := by
  intro i m
  induction m generalizing i with
  | nil => rfl
  | cons b rest ih =>
    simp only [xorStream, ih]
    rw [Nat.xor_assoc, Nat.xor_self, Nat.xor_zero]

theorem sendAll_spec (ms : List (List Nat)) : ∀ (s : ControlSession),
    ((sendAll s ms).1.map (fun p => p.seq) = List.range' s.send_seq ms.length) ∧
    (sendAll s ms).2.send_seq = s.send_seq + ms.length := by
  induction ms with
  | nil => intro s; simp [sendAll]
  | cons m ms ih =>
    intro s
    have h := ih { s with send_seq := s.send_seq + 1 }
    simp only [sendAll, encrypt, List.map_cons, List.length_cons]
    refine ⟨?_, ?_⟩
    · rw [List.range'_succ]
      exact congrArg (List.cons s.send_seq) h.1
    · have hs : ({ s with send_seq := s.send_seq + 1 } : ControlSession).send_seq
          = s.send_seq + 1 := rfl
      rw [h.2, hs]; omega

/-- C1: for every valid session and every sequence of N outbound packets
sent on it (a retransmission re-enters the same encrypt path), the N
sequence numbers used as AEAD nonces are pairwise distinct, and `send_seq`
increments by exactly 1 per transmitted packet with no gaps and no reuse:
the emitted sequence numbers are exactly `send_seq, send_seq+1, ...`. -/
theorem sequence_numbers_distinct (s : ControlSession) (ms : List (List Nat)) :
    ((sendAll s ms).1.map (fun p => p.seq)).Nodup ∧
    ((sendAll s ms).1.map (fun p => p.seq)) = List.range' s.send_seq ms.length ∧
    (sendAll s ms).2.send_seq = s.send_seq + ms.length := by
  obtain ⟨h1, h2⟩ := sendAll_spec ms s
  exact ⟨h1 ▸ List.nodup_range' .., h1, h2⟩

/-- C2: for every session and every plaintext `m`, encrypting `m` under the
freshly issued sequence number and decrypting the resulting packet with the
same session keys returns exactly `m`. -/
theorem decrypt_encrypt_roundtrip (s : ControlSession) (m : List Nat) :
    decrypt s (encrypt s m).1 = .ok m := by
  simp [decrypt, encrypt, xorStream_xorStream]

/-- C3: flipping any single bit of the 16-byte tag or of the ciphertext
payload of a validly encrypted packet makes `decrypt` return
`AuthenticationFailed` rather than any plaintext, and the dispatch loop
drops the packet without advancing any session state. -/
theorem tamper_rejected (s : ControlSession) (m : List Nat) (i b : Nat) :
    (b < 128 →
      decrypt s (tagFlip (encrypt s m).1 b) = .error .AuthenticationFailed ∧
      ∀ now, processPacket now s (tagFlip (encrypt s m).1 b)
        = (s, [], some (.codec .AuthenticationFailed))) ∧
    (i < m.length → b < 8 →
      decrypt s (payloadFlip (encrypt s m).1 i b) = .error .AuthenticationFailed ∧
      ∀ now, processPacket now s (payloadFlip (encrypt s m).1 i b)
        = (s, [], some (.codec .AuthenticationFailed))) := by
  have htag : decrypt s (tagFlip (encrypt s m).1 b) = .error .AuthenticationFailed := by
    apply decrypt_wrong_tag
    show gcmTag s.aes_key (packetIV s.aes_iv_base s.send_seq)
        (xorStream s.aes_key (packetIV s.aes_iv_base s.send_seq) 0 m)
      ≠ gcmTag s.aes_key (packetIV s.aes_iv_base s.send_seq)
        (xorStream s.aes_key (packetIV s.aes_iv_base s.send_seq) 0 m) ^^^ 2 ^ b
    exact fun h => xor_pow_ne _ b h.symm
  refine ⟨fun _ => ⟨htag, fun now => processPacket_decrypt_error now s _ _ htag⟩,
    fun hi _ => ?_⟩
  have hpay : decrypt s (payloadFlip (encrypt s m).1 i b)
      = .error .AuthenticationFailed := by
    apply decrypt_wrong_tag
    show gcmTag s.aes_key (packetIV s.aes_iv_base s.send_seq)
        (flipByteBit (xorStream s.aes_key (packetIV s.aes_iv_base s.send_seq) 0 m) i b)
      ≠ gcmTag s.aes_key (packetIV s.aes_iv_base s.send_seq)
        (xorStream s.aes_key (packetIV s.aes_iv_base s.send_seq) 0 m)
    rw [gcmTag_flipByteBit _ _ _ i b (by rw [xorStream_length]; exact hi)]
    exact xor_pow_ne _ b
  exact ⟨hpay, fun now => processPacket_decrypt_error now s _ _ hpay⟩

/-- Witness for C3 at a concrete session, plaintext and bit positions. -/
theorem tamper_rejected_witness :
    (5 < 128 ∧
      decrypt exampleSession (tagFlip (encrypt exampleSession [65, 66]).1 5)
        = .error .AuthenticationFailed) ∧
    (1 < 2 ∧ 3 < 8 ∧
      decrypt exampleSession (payloadFlip (encrypt exampleSession [65, 66]).1 1 3)
        = .error .AuthenticationFailed) :=
  ⟨⟨by norm_num,
      ((tamper_rejected exampleSession [65, 66] 1 5).1 (by norm_num)).1⟩,
    ⟨by norm_num, by norm_num,
      ((tamper_rejected exampleSession [65, 66] 1 3).2 (by norm_num) (by norm_num)).1⟩⟩

theorem parseDatagram_error (d : List Nat) (e : CodecError)
    (hp : parseDatagram d = .error e) : e = .Malformed := by
  unfold parseDatagram at hp
  split_ifs at hp
  all_goals (injection hp with h; exact h.symm)

theorem parseDatagram_ok (d : List Nat) (p : EncryptedPacket)
    (hp : parseDatagram d = .ok p) :
    p.len = readNatLE d 2 2 ∧ p.len = 20 + p.payload.length ∧ 4 + p.len ≤ d.length := by
  unfold parseDatagram at hp
  split_ifs at hp with h1 h2 h3
  injection hp with h
  subst h
  refine ⟨rfl, ?_, by simpa using Nat.le_of_not_lt h3⟩
  simp only [List.length_take, List.length_drop]
  have h2' := Nat.le_of_not_lt h2
  have h3' := Nat.le_of_not_lt h3
  omega

/-- C4 (amended): the reader validates the envelope length invariant
`len == 20 + ciphertext_len` (the payload is `len - 20` bytes, after the
4-byte seq and the 16-byte tag); an envelope whose `len` field claims more
bytes than the datagram actually holds is rejected with `Malformed` and
AEAD decryption is never attempted on it. -/
theorem envelope_length_validated (s : ControlSession) (d : List Nat) :
    (d.length < 4 + readNatLE d 2 2 → decryptDatagram s d = .error .Malformed) ∧
    (∀ p, parseDatagram d = .ok p → p.len = 20 + p.payload.length) := by
  constructor
  · intro h
    simp only [decryptDatagram]
    rcases hp : parseDatagram d with e | p
    · rw [parseDatagram_error d e hp]
    · exfalso
      obtain ⟨hlen, _, hbound⟩ := parseDatagram_ok d p hp
      omega
  · intro p hp
    exact (parseDatagram_ok d p hp).2.1

/-- Witness for C4's amended theorem on a concrete truncated datagram whose
`len` field claims 50 bytes while none follow the header. -/
theorem envelope_length_validated_witness :
    ([1, 0, 50, 0] : List Nat).length < 4 + readNatLE [1, 0, 50, 0] 2 2 ∧
    decryptDatagram exampleSession [1, 0, 50, 0] = .error .Malformed :=
  ⟨by decide, (envelope_length_validated exampleSession [1, 0, 50, 0]).1 (by decide)⟩

/-- Counterexample to C4 as stated: a well-formed wire packet produced by
the codec itself is accepted by the reader and decrypts correctly, yet its
`len` field equals `20 + ciphertext_len`, not `20 - 4 + ciphertext_len`;
the reader therefore does not validate the claimed equation. -/
theorem envelope_invariant_counterexample :
    parseDatagram exampleDatagram = .ok (encrypt exampleSession [65]).1 ∧
    decryptDatagram exampleSession exampleDatagram = .ok [65] ∧
    (encrypt exampleSession [65]).1.len = 21 ∧
    (encrypt exampleSession [65]).1.payload.length = 1 ∧
    ¬ (encrypt exampleSession [65]).1.len
        = 20 - 4 + (encrypt exampleSession [65]).1.payload.length := by
  exact ⟨rfl, rfl, rfl, rfl, by decide⟩

/-- C8: decoding a message of type 0x5502 (RGB_LED) with body bytes
`[0x01, 0x00, 0x10, 0x20, 0x30]` yields
`RgbLedRequested{controller: 1, r: 0x10, g: 0x20, b: 0x30}`, following the
little-endian fixed layout controller:2, r:1, g:1, b:1. -/
theorem rgb_led_decode (sid : Nat) :
    decode sid 0x5502 [0x01, 0x00, 0x10, 0x20, 0x30]
      = .ok (some (.RgbLedRequested sid 1 0x10 0x20 0x30)) := by
  rfl

theorem decodeKind_no_terminated (sid : Nat) (k : MessageKind) (body : List Nat)
    (ev : Event) (h : decodeKind sid k body = .ok (some ev)) :
    ∀ sid2 r, ev ≠ .Terminated sid2 r := by
  intro sid2 r hne
  subst hne
  cases k <;> (simp only [decodeKind] at h; try split_ifs at h) <;> simp_all

theorem dispatchEstablished_terminated (s : ControlSession) (k : MessageKind)
    (body : List Nat) (s2 : ControlSession) (evs : List Event)
    (h : dispatchEstablished s k body = .ok (s2, evs)) (sid : Nat) (r : SessionError)
    (hmem : Event.Terminated sid r ∈ evs) : r = .ExplicitTermination := by
  unfold dispatchEstablished at h
  split at h
  · simp only [Except.ok.injEq, Prod.mk.injEq] at h
    obtain ⟨-, h6⟩ := h
    subst h6
    simp at hmem
    exact hmem.2
  · split at h
    · exact Except.noConfusion h
    · simp only [Except.ok.injEq, Prod.mk.injEq] at h
      obtain ⟨-, h6⟩ := h
      subst h6
      simp at hmem
    · rename_i ev heq
      simp only [Except.ok.injEq, Prod.mk.injEq] at h
      obtain ⟨-, h6⟩ := h
      subst h6
      simp at hmem
      exact absurd hmem.symm (decodeKind_no_terminated _ _ _ _ heq sid r)

theorem handleKind_terminated (now : Nat) (s : ControlSession) (k : MessageKind)
    (body : List Nat) (s2 : ControlSession) (evs : List Event)
    (h : handleKind now s k body = .ok (s2, evs)) (sid : Nat) (r : SessionError)
    (hmem : Event.Terminated sid r ∈ evs) : r = .ExplicitTermination := by
  unfold handleKind at h
  split at h
  · simp only [Except.ok.injEq, Prod.mk.injEq] at h
    obtain ⟨-, h6⟩ := h
    subst h6
    simp at hmem
  · split at h
    · split at h
      · simp only [Except.ok.injEq, Prod.mk.injEq] at h
        obtain ⟨-, h6⟩ := h
        subst h6
        simp at hmem
      · exact Except.noConfusion h
    · split at h
      · simp only [Except.ok.injEq, Prod.mk.injEq] at h
        obtain ⟨-, h6⟩ := h
        subst h6
        simp at hmem
      · exact Except.noConfusion h
    · exact dispatchEstablished_terminated _ _ _ _ _ h sid r hmem
    · simp only [Except.ok.injEq, Prod.mk.injEq] at h
      obtain ⟨-, h6⟩ := h
      subst h6
      simp at hmem
    · simp only [Except.ok.injEq, Prod.mk.injEq] at h
      obtain ⟨-, h6⟩ := h
      subst h6
      simp at hmem

theorem processPacket_spec (now : Nat) (s : ControlSession) (p : EncryptedPacket) :
    (∀ e, (processPacket now s p).2.2 = some e →
      (processPacket now s p).1 = s ∧ (processPacket now s p).2.1 = []) ∧
    (∀ sid r, Event.Terminated sid r ∈ (processPacket now s p).2.1 →
      r = .ExplicitTermination) := by
  unfold processPacket
  split
  · exact ⟨fun e2 h => ⟨rfl, rfl⟩, fun sid r hm => absurd hm (by simp)⟩
  · split
    · exact ⟨fun e2 h => ⟨rfl, rfl⟩, fun sid r hm => absurd hm (by simp)⟩
    · split
      · exact ⟨fun e2 h => ⟨rfl, rfl⟩, fun sid r hm => absurd hm (by simp)⟩
      · rename_i ses heq
        exact ⟨fun e2 h => absurd h (by simp),
          fun sid r hm => handleKind_terminated _ _ _ _ _ _ heq sid r hm⟩

theorem sessionStep_spec (now : Nat) (s : ControlSession) (d : List Nat) :
    (∀ e, (sessionStep now s d).2.2 = some e →
      (sessionStep now s d).1 = s ∧ (sessionStep now s d).2.1 = []) ∧
    (∀ sid r, Event.Terminated sid r ∈ (sessionStep now s d).2.1 →
      r = .ExplicitTermination) := by
  unfold sessionStep
  split
  · exact ⟨fun e h => absurd h (by simp), fun sid r hm => absurd hm (by simp)⟩
  · split
    · exact ⟨fun e h => ⟨rfl, rfl⟩, fun sid r hm => absurd hm (by simp)⟩
    · exact processPacket_spec now s _

/-- C5: a decrypted message whose 2-byte type tag is outside the closed set
decodes to `UnknownType`; every per-packet codec or decode failure leaves
the session unchanged and alive with no events published; and a
`Terminated` event can only carry reason `ExplicitTermination` (from the
dispatch loop) or `Timeout` (from the keepalive timer). -/
theorem error_containment :
    (∀ sid mt body, messageTypeOf mt = none →
      decode sid mt body = .error .UnknownType) ∧
    (∀ now s d e, (sessionStep now s d).2.2 = some e →
      (sessionStep now s d).1 = s ∧ (sessionStep now s d).2.1 = []) ∧
    (∀ now s d sid r, Event.Terminated sid r ∈ (sessionStep now s d).2.1 →
      r = .ExplicitTermination) ∧
    (∀ timeout now s sid r, Event.Terminated sid r ∈ (keepaliveCheck timeout now s).2 →
      r = .Timeout) := by
  refine ⟨?_, ?_, ?_, ?_⟩
  · intro sid mt body h
    simp [decode, h]
  · intro now s d e h
    exact (sessionStep_spec now s d).1 e h
  · intro now s d sid r h
    exact (sessionStep_spec now s d).2 sid r h
  · intro timeout now s sid r h
    unfold keepaliveCheck at h
    split_ifs at h
    · simp at h
      exact h.2
    · simp at h

/-- Witness for C5 on a concrete unknown tag, a concrete malformed
datagram, and a concrete keepalive firing. -/
theorem error_containment_witness :
    messageTypeOf 0x9999 = none ∧
    decode 7 0x9999 [1, 2] = .error .UnknownType ∧
    (sessionStep 0 exampleSession []).2.2 = some (.codec .Malformed) ∧
    (sessionStep 0 exampleSession []).1 = exampleSession ∧
    Event.Terminated 1 .Timeout ∈ (keepaliveCheck 1000 2000 exampleSession).2 ∧
    (.Timeout : SessionError) = .Timeout :=
  ⟨rfl, error_containment.1 7 0x9999 [1, 2] rfl, rfl,
    (error_containment.2.1 0 exampleSession [] (.codec .Malformed) rfl).1,
    by decide,
    error_containment.2.2.2 1000 2000 exampleSession 1 .Timeout (by decide)⟩

/-- C6: a session in `Handshaking` that receives START_B before START_A
stays in `Handshaking` with the message rejected as
`UnexpectedInSequence`; in `Handshaking` only the ordered pair START_A then
START_B is accepted, PERIODIC_PING is always accepted, every other kind is
rejected with `UnexpectedInSequence`, and a rejected datagram leaves the
session state unchanged. -/
theorem handshake_ordering (now : Nat) (s : ControlSession) (body : List Nat) :
    (s.state = .Handshaking false →
      handleKind now s .START_B body = .error .UnexpectedInSequence ∧
      handleKind now s .START_A body = .ok ({ s with state := .Handshaking true }, []) ∧
      (∀ k, k ≠ .START_A → k ≠ .PERIODIC_PING →
        handleKind now s k body = .error .UnexpectedInSequence)) ∧
    (s.state = .Handshaking true →
      handleKind now s .START_B body = .ok ({ s with state := .Established }, []) ∧
      (∀ k, k ≠ .START_B → k ≠ .PERIODIC_PING →
        handleKind now s k body = .error .UnexpectedInSequence)) ∧
    handleKind now s .PERIODIC_PING body = .ok ({ s with last_activity_time := now }, []) ∧
    (∀ d e, (sessionStep now s d).2.2 = some (.dec e) → (sessionStep now s d).1 = s) := by
  refine ⟨fun hs => ⟨?_, ?_, ?_⟩, fun hs => ⟨?_, ?_⟩, rfl, ?_⟩
  · unfold handleKind
    rw [hs]
  · unfold handleKind
    rw [hs]
  · intro k hk1 hk2
    cases k <;> first
      | exact absurd rfl hk1
      | exact absurd rfl hk2
      | (unfold handleKind; rw [hs])
  · unfold handleKind
    rw [hs]
  · intro k hk1 hk2
    cases k <;> first
      | exact absurd rfl hk1
      | exact absurd rfl hk2
      | (unfold handleKind; rw [hs])
  · intro d e h
    exact ((sessionStep_spec now s d).1 _ h).1

/-- Witness for C6 on a concrete session that has not yet seen START_A. -/
theorem handshake_ordering_witness :
    ({ exampleSession with state := .Handshaking false } : ControlSession).state
        = .Handshaking false ∧
    handleKind 5 { exampleSession with state := .Handshaking false } .START_B []
        = .error .UnexpectedInSequence ∧
    handleKind 5 { exampleSession with state := .Handshaking false } .START_A []
        = .ok ({ exampleSession with state := .Handshaking true }, []) :=
  ⟨rfl,
    ((handshake_ordering 5 { exampleSession with state := .Handshaking false } []).1 rfl).1,
    ((handshake_ordering 5 { exampleSession with state := .Handshaking false } []).1 rfl).2.1⟩

theorem runTrace_not_established (timeout : Nat) :
    ∀ (tr : List TraceItem) (s : ControlSession), s.state = .Terminating →
      tr.all isTick = true → runTrace timeout s tr = (s, []) := by
  intro tr
  induction tr with
  | nil => intro s h ha; rfl
  | cons i rest ih =>
    intro s h ha
    cases i with
    | ping t => simp [List.all_cons, isTick] at ha
    | tick t =>
      have hcheck : keepaliveCheck timeout t s = (s, []) := by
        unfold keepaliveCheck
        rw [if_neg]
        intro hc
        rw [h] at hc
        exact absurd hc.1 (by simp)
      simp only [runTrace, hcheck]
      rw [List.all_cons] at ha
      rw [ih s h ((Bool.and_eq_true _ _).mp ha).2]
      simp

theorem runTrace_alive (timeout : Nat) :
    ∀ (tr : List TraceItem) (s : ControlSession), s.state = .Established →
      aliveTrace timeout s.last_activity_time tr = true →
      (runTrace timeout s tr).2 = [] ∧ (runTrace timeout s tr).1.state = .Established := by
  intro tr
  induction tr with
  | nil => intro s h ha; exact ⟨rfl, h⟩
  | cons i rest ih =>
    intro s h ha
    cases i with
    | ping t =>
      simp only [runTrace]
      exact ih { s with last_activity_time := t } h (by simpa [aliveTrace] using ha)
    | tick t =>
      obtain ⟨h1, h2⟩ : t < s.last_activity_time + timeout ∧
          aliveTrace timeout s.last_activity_time rest = true := by
        simpa [aliveTrace] using ha
      have hcheck : keepaliveCheck timeout t s = (s, []) := by
        unfold keepaliveCheck
        rw [if_neg]
        intro hc
        exact absurd hc.2 (by omega)
      simp only [runTrace, hcheck]
      have hrest := ih s h h2
      simp [hrest.1, hrest.2]

theorem runTrace_timeout (timeout : Nat) :
    ∀ (tr : List TraceItem) (s : ControlSession), s.state = .Established →
      tr.all isTick = true →
      tr.any (tickAtLeast (s.last_activity_time + timeout)) = true →
      (runTrace timeout s tr).2 = [Event.Terminated s.session_id .Timeout] ∧
      (runTrace timeout s tr).1.state = .Terminating := by
  intro tr
  induction tr with
  | nil => intro s h ha hany; simp at hany
  | cons i rest ih =>
    intro s h ha hany
    cases i with
    | ping t => simp [List.all_cons, isTick] at ha
    | tick t =>
      by_cases hge : s.last_activity_time + timeout ≤ t
      · have hcheck : keepaliveCheck timeout t s
            = ({ s with state := .Terminating }, [.Terminated s.session_id .Timeout]) := by
          unfold keepaliveCheck
          rw [if_pos ⟨h, hge⟩]
        simp only [runTrace, hcheck]
        rw [List.all_cons] at ha
        rw [runTrace_not_established timeout rest { s with state := .Terminating } rfl
          ((Bool.and_eq_true _ _).mp ha).2]
        simp
      · have hcheck : keepaliveCheck timeout t s = (s, []) := by
          unfold keepaliveCheck
          rw [if_neg]
          intro hc
          exact hge hc.2
        simp only [runTrace, hcheck]
        have hany' : rest.any (tickAtLeast (s.last_activity_time + timeout)) = true := by
          simpa [List.any_cons, tickAtLeast, hge] using hany
        rw [List.all_cons] at ha
        have hrest := ih s h ((Bool.and_eq_true _ _).mp ha).2 hany'
        simp [hrest.1, hrest.2]

/-- C7: for an `Established` session watched with the `run_control` default
1000 ms timeout, a keepalive timeline whose timer ticks all fall within
the timeout of the latest ping produces no `Terminated` event; a timeline
of timer ticks with no pings, at least one of them past the timeout,
produces exactly one `Terminated{Timeout}` and leaves the session in
`Terminating`. -/
theorem keepalive_behavior (s : ControlSession) (tr : List TraceItem) :
    (s.state = .Established →
      aliveTrace run_control_default_timeout s.last_activity_time tr = true →
      (runTrace run_control_default_timeout s tr).2 = []) ∧
    (s.state = .Established → tr.all isTick = true →
      tr.any (tickAtLeast (s.last_activity_time + run_control_default_timeout)) = true →
      (runTrace run_control_default_timeout s tr).2
          = [Event.Terminated s.session_id .Timeout] ∧
      (runTrace run_control_default_timeout s tr).1.state = .Terminating) :=
  ⟨fun h ha => (runTrace_alive _ tr s h ha).1,
    fun h ha hany => runTrace_timeout _ tr s h ha hany⟩

/-- Witness for C7 on concrete timelines: pings keeping the session alive,
then ticks with no pings firing exactly one timeout. -/
theorem keepalive_behavior_witness :
    exampleSession.state = .Established ∧
    aliveTrace run_control_default_timeout exampleSession.last_activity_time
      alivePingTrace = true ∧
    (runTrace run_control_default_timeout exampleSession alivePingTrace).2 = [] ∧
    silentTrace.all isTick = true ∧
    silentTrace.any
      (tickAtLeast (exampleSession.last_activity_time + run_control_default_timeout))
        = true ∧
    (runTrace run_control_default_timeout exampleSession silentTrace).2
        = [Event.Terminated 1 .Timeout] :=
  ⟨rfl, by decide,
    (keepalive_behavior exampleSession alivePingTrace).1 rfl (by decide),
    by decide, by decide,
    ((keepalive_behavior exampleSession silentTrace).2 rfl (by decide) (by decide)).1⟩

/-- C9: publishing invokes every currently-registered subscriber of the
kind, in subscription order (a later subscription is invoked after all
earlier ones), and two events published in order A then B reach every
registered subscriber in that order. -/
theorem bus_delivery_order (b : EventBus) (A B : Event) (sub : Nat) :
    ((publish b A).map Prod.fst = b.subs) ∧
    (∀ h2, publish (subscribe b h2) A = publish b A ++ [(h2, A)]) ∧
    (sub ∈ b.subs →
      ∃ (i j : Nat), i < j ∧
        (publish b A ++ publish b B)[i]? = some (sub, A) ∧
        (publish b A ++ publish b B)[j]? = some (sub, B)) := by
  refine ⟨by simp only [publish, List.map_map]; exact List.map_id _,
    fun h2 => by simp [publish, subscribe], fun hmem => ?_⟩
  obtain ⟨k, hk⟩ := List.mem_iff_getElem?.mp hmem
  obtain ⟨hklt, hkv⟩ := List.getElem?_eq_some.mp hk
  have hlenA : (publish b A).length = b.subs.length := by simp [publish]
  refine ⟨k, b.subs.length + k, by omega, ?_, ?_⟩
  · rw [List.getElem?_append_left (by omega : k < (publish b A).length)]
    simp [publish, hk]
  · rw [List.getElem?_append_right (by omega : (publish b A).length ≤ b.subs.length + k)]
    rw [hlenA]
    simp only [Nat.add_sub_cancel_left]
    simp [publish, hk]

/-- Witness for C9 on a concrete two-subscriber bus. -/
theorem bus_delivery_order_witness :
    9 ∈ (⟨[4, 9]⟩ : EventBus).subs ∧
    ∃ (i j : Nat), i < j ∧
      (publish ⟨[4, 9]⟩ (.IdrRequested 1) ++
        publish ⟨[4, 9]⟩ (.IdrRequested 2))[i]? = some (9, .IdrRequested 1) ∧
      (publish ⟨[4, 9]⟩ (.IdrRequested 1) ++
        publish ⟨[4, 9]⟩ (.IdrRequested 2))[j]? = some (9, .IdrRequested 2) :=
  ⟨by decide,
    (bus_delivery_order ⟨[4, 9]⟩ (.IdrRequested 1) (.IdrRequested 2) 9).2.2 (by decide)⟩

/-- C10: the media-pipeline subscribers filter by session themselves: the
video IDR handler forces a keyframe exactly when the control event carries
its own session id and type IDR_FRAME, the video and audio terminate
handlers quit their main loop exactly on their own session id, and any
event with a different session id leaves the pipeline untouched. -/
theorem pipeline_session_filtering (sess_id : Nat) (ev : ControlEvent)
    (tev : TerminateEvent) :
    (video_idr_handler sess_id ev = [.forceKeyUnit] ↔
      ev.session_id = sess_id ∧ ev.type = .IDR_FRAME) ∧
    (ev.session_id ≠ sess_id → video_idr_handler sess_id ev = []) ∧
    (video_terminate_handler sess_id tev = [.quitMainLoop] ↔ tev.session_id = sess_id) ∧
    (audio_terminate_handler sess_id tev = [.quitMainLoop] ↔ tev.session_id = sess_id) ∧
    (tev.session_id ≠ sess_id →
      video_terminate_handler sess_id tev = [] ∧
      audio_terminate_handler sess_id tev = []) := by
  unfold video_idr_handler video_terminate_handler audio_terminate_handler
  refine ⟨?_, ?_, ?_, ?_, ?_⟩
  · split_ifs <;> simp_all
  · intro h
    split_ifs <;> simp_all
  · split_ifs <;> simp_all
  · split_ifs <;> simp_all
  · intro h
    split_ifs <;> simp_all

/-- Witness for C10: an event of a foreign session does nothing, a matching
IDR event forces a keyframe. -/
theorem pipeline_session_filtering_witness :
    ((⟨2, .IDR_FRAME⟩ : ControlEvent).session_id ≠ 1) ∧
    video_idr_handler 1 ⟨2, .IDR_FRAME⟩ = [] ∧
    video_idr_handler 1 ⟨1, .IDR_FRAME⟩ = [.forceKeyUnit] :=
  ⟨by decide,
    (pipeline_session_filtering 1 ⟨2, .IDR_FRAME⟩ ⟨2⟩).2.1 (by decide),
    (pipeline_session_filtering 1 ⟨1, .IDR_FRAME⟩ ⟨1⟩).1.mpr ⟨rfl, rfl⟩⟩

end Wolf
